import Mathlib

/-!
Shallow embedding of the core analysis logic of the Alpha-Hunter-Signal
repository, centred on `src/analysis/probability_engine_v2.py`
(class `ProfessionalProbabilityEngine`) and the strategy selector in
`src/core/unified_ecosystem_engine.py`.

Conventions of the embedding:
* Python floats are modelled as `ℝ` where the code uses `exp`, `log`,
  `sqrt` or the normal distribution, and as `ℚ` where the code only uses
  field arithmetic and comparisons (so those parts stay executable).
* The stream of pseudo-random draws (`np.random.normal`,
  `random.normalvariate`) is made an explicit list argument.
* Broad `except` blocks that return a fallback are modelled with `Option`.
-/

namespace AlphaHunter

open ProbabilityTheory MeasureTheory

/-- Option kind, the `option_type` string parameter of the engine
(`'put'` or `'call'`). -/
inductive OptionType where
  | put
  | call
deriving DecidableEq, Repr

/-- The engine constant `self.risk_free_rate = 0.045`. -/
def risk_free_rate : ℚ := 45 / 1000

/-- The engine constant `self.trading_days = 252`. -/
def trading_days : ℚ := 252

/-! ## Monte Carlo simulation (`monte_carlo_simulation`, lines 175-203)

The code draws `simulations` standard-normal shocks and maps each shock
`z` to a terminal price
`current_price * exp((r - 0.5*vol^2)*dt + vol*sqrt(dt)*z)` with
`dt = days_to_expiry / 252`; the probability is the mean of the
indicator `final_price > strike` (PUT) or `final_price < strike` (CALL),
times 100.  The shocks are passed explicitly. -/

/-- Terminal price of one simulated path, from `monte_carlo_simulation`:
`final_prices = current_price * np.exp((r - 0.5*volatility**2)*dt +
volatility*np.sqrt(dt)*random_shocks)` with `dt = days_to_expiry / 252`. -/
noncomputable def mc_final_price (current_price volatility : ℝ)
    (days_to_expiry : ℕ) (z : ℝ) : ℝ :=
  let dt : ℝ := (days_to_expiry : ℝ) / (trading_days : ℝ)
  current_price *
    Real.exp (((risk_free_rate : ℝ) - 0.5 * volatility ^ 2) * dt +
      volatility * Real.sqrt dt * z)

/-- The `probability` field computed by `monte_carlo_simulation`:
`np.mean(final_prices > strike) * 100` for a put,
`np.mean(final_prices < strike) * 100` for a call. -/
noncomputable def monte_carlo_probability (current_price volatility : ℝ)
    (days_to_expiry : ℕ) (strike_price : ℝ) (shocks : List ℝ)
    (option_type : OptionType) : ℝ :=
  let final_prices := shocks.map (mc_final_price current_price volatility days_to_expiry)
  match option_type with
  | .put =>
      ((final_prices.countP fun p => decide (p > strike_price) : ℕ) : ℝ) /
        (final_prices.length : ℝ) * 100
  | .call =>
      ((final_prices.countP fun p => decide (p < strike_price) : ℕ) : ℝ) /
        (final_prices.length : ℝ) * 100

/-- Claim C1 -- In the Monte Carlo estimator, the PUT probability is 100
times the fraction of simulated terminal prices strictly above the strike
and the CALL probability is 100 times the fraction strictly below it,
where the terminal price of the path with shock `Z` is
`S0 * exp((r - 0.5*sigma^2)*T + sigma*sqrt(T)*Z)` with
`T = days_to_expiry/252`. -/
theorem monte_carlo_probability_fraction_of_paths
    (S0 sigma strike : ℝ) (days_to_expiry : ℕ) (shocks : List ℝ) :
    monte_carlo_probability S0 sigma days_to_expiry strike shocks .put =
      ((shocks.countP fun z => decide
          (S0 * Real.exp ((0.045 - 0.5 * sigma ^ 2) * ((days_to_expiry : ℝ) / 252) +
            sigma * Real.sqrt ((days_to_expiry : ℝ) / 252) * z) > strike) : ℕ) : ℝ) /
        (shocks.length : ℝ) * 100 ∧
    monte_carlo_probability S0 sigma days_to_expiry strike shocks .call =
      ((shocks.countP fun z => decide
          (S0 * Real.exp ((0.045 - 0.5 * sigma ^ 2) * ((days_to_expiry : ℝ) / 252) +
            sigma * Real.sqrt ((days_to_expiry : ℝ) / 252) * z) < strike) : ℕ) : ℝ) /
        (shocks.length : ℝ) * 100 := by
  have hfp : ∀ z : ℝ, mc_final_price S0 sigma days_to_expiry z =
      S0 * Real.exp ((0.045 - 0.5 * sigma ^ 2) * ((days_to_expiry : ℝ) / 252) +
        sigma * Real.sqrt ((days_to_expiry : ℝ) / 252) * z) := by
    intro z
    simp only [mc_final_price, risk_free_rate, trading_days]
    norm_num
  constructor <;>
    simp only [monte_carlo_probability, List.countP_map, List.length_map,
      Function.comp_def, hfp]

/-- Claim C3 -- The Monte Carlo probability always lies in [0, 100]. -/
theorem monte_carlo_probability_mem_Icc (S0 sigma strike : ℝ)
    (days_to_expiry : ℕ) (shocks : List ℝ) (option_type : OptionType) :
    0 ≤ monte_carlo_probability S0 sigma days_to_expiry strike shocks option_type ∧
      monte_carlo_probability S0 sigma days_to_expiry strike shocks option_type ≤ 100 := by
  have hbound : ∀ p : ℝ → Bool,
      0 ≤ (((shocks.map (mc_final_price S0 sigma days_to_expiry)).countP p : ℕ) : ℝ) /
        (((shocks.map (mc_final_price S0 sigma days_to_expiry)).length : ℕ) : ℝ) * 100 ∧
      (((shocks.map (mc_final_price S0 sigma days_to_expiry)).countP p : ℕ) : ℝ) /
        (((shocks.map (mc_final_price S0 sigma days_to_expiry)).length : ℕ) : ℝ) * 100 ≤ 100 := by
    intro p
    set l := shocks.map (mc_final_price S0 sigma days_to_expiry) with hl
    rcases Nat.eq_zero_or_pos l.length with h0 | hpos
    · simp [h0]
    · have hcount : (l.countP p : ℝ) ≤ (l.length : ℝ) := by
        exact_mod_cast List.countP_le_length p
      have hlen : (0 : ℝ) < (l.length : ℝ) := by exact_mod_cast hpos
      have hfrac0 : (0 : ℝ) ≤ (l.countP p : ℝ) / (l.length : ℝ) :=
        div_nonneg (by positivity) hlen.le
      have hfrac1 : (l.countP p : ℝ) / (l.length : ℝ) ≤ 1 :=
        (div_le_one hlen).mpr hcount
      constructor
      · positivity
      · nlinarith
  cases option_type
  · simpa [monte_carlo_probability] using hbound (fun p => decide (p > strike))
  · simpa [monte_carlo_probability] using hbound (fun p => decide (p < strike))

/-! ## Greeks (`calculate_greeks`, lines 205-259)

The code first converts `time_to_expiry` (days) to years, then — instead
of rejecting degenerate inputs — replaces them by defaults with a
warning print: `S <= 0 → 100`, `K <= 0 → S`, `T <= 0 → 1/365`,
`sigma <= 0 → 0.20`.  It then evaluates the Black-Scholes greeks. -/

/-- Standard normal density `scipy.stats.norm.pdf`. -/
noncomputable def normPdf (x : ℝ) : ℝ :=
  Real.exp (-(x ^ 2) / 2) / Real.sqrt (2 * Real.pi)

/-- Standard normal cumulative distribution `scipy.stats.norm.cdf`,
modelled as the measure of `(-∞, x]` under the standard Gaussian. -/
noncomputable def normCdf (x : ℝ) : ℝ :=
  (gaussianReal 0 1 (Set.Iic x)).toReal

/-- The post-substitution parameters used by `calculate_greeks`:
spot, strike, time in years, volatility. -/
structure GreeksInputs where
  S : ℝ
  K : ℝ
  T : ℝ
  sigma : ℝ

/-- The result dictionary of `calculate_greeks`. -/
structure Greeks where
  delta : ℝ
  gamma : ℝ
  theta : ℝ
  vega : ℝ
  d1 : ℝ
  d2 : ℝ

/-- The "ZERODIVISIONERROR PROTECTION" block of `calculate_greeks`
(lines 212-227): each nonpositive parameter is silently replaced by a
default (`S → 100`, `K → S`, `T → 1/365` years, `sigma → 0.20`). -/
noncomputable def greeks_sanitize (S0 K0 T0 sigma0 : ℝ) : GreeksInputs :=
  let S := if S0 ≤ 0 then 100 else S0
  let K := if K0 ≤ 0 then S else K0
  let T := if T0 ≤ 0 then 1 / 365 else T0
  let sigma := if sigma0 ≤ 0 then 0.20 else sigma0
  ⟨S, K, T, sigma⟩

/-- The Black-Scholes part of `calculate_greeks` (lines 229-257),
evaluated on the sanitized parameters. -/
noncomputable def black_scholes_greeks (inp : GreeksInputs)
    (option_type : OptionType) : Greeks :=
  let S := inp.S
  let K := inp.K
  let T := inp.T
  let sigma := inp.sigma
  let r : ℝ := (risk_free_rate : ℝ)
  let d1 := (Real.log (S / K) + (r + 0.5 * sigma ^ 2) * T) / (sigma * Real.sqrt T)
  let d2 := d1 - sigma * Real.sqrt T
  let delta := match option_type with
    | .put => -normCdf (-d1)
    | .call => normCdf d1
  let theta := match option_type with
    | .put => (-(S * normPdf d1 * sigma) / (2 * Real.sqrt T) -
        r * K * Real.exp (-r * T) * normCdf (-d2)) / 365
    | .call => (-(S * normPdf d1 * sigma) / (2 * Real.sqrt T) +
        r * K * Real.exp (-r * T) * normCdf d2) / 365
  let denominator_gamma := S * sigma * Real.sqrt T
  let gamma := if denominator_gamma ≤ 0 then 0.01 else normPdf d1 / denominator_gamma
  let vega := S * normPdf d1 * Real.sqrt T / 100
  ⟨delta, gamma, theta, vega, d1, d2⟩

/-- The method `calculate_greeks(current_price, strike_price, time_to_expiry,
volatility, option_type)`: convert days to years, sanitize, then apply
Black-Scholes. -/
noncomputable def calculate_greeks (current_price strike_price
    time_to_expiry volatility : ℝ) (option_type : OptionType) : Greeks :=
  black_scholes_greeks
    (greeks_sanitize current_price strike_price (time_to_expiry / 365) volatility)
    option_type

theorem normCdf_nonneg (x : ℝ) : 0 ≤ normCdf x :=
  ENNReal.toReal_nonneg

theorem normCdf_le_one (x : ℝ) : normCdf x ≤ 1 := by
  have h : gaussianReal 0 1 (Set.Iic x) ≤ 1 := prob_le_one
  calc (gaussianReal 0 1 (Set.Iic x)).toReal
      ≤ (1 : ENNReal).toReal := ENNReal.toReal_mono (by simp) h
    _ = 1 := by simp

theorem normPdf_nonneg (x : ℝ) : 0 ≤ normPdf x :=
  div_nonneg (Real.exp_pos _).le (Real.sqrt_nonneg _)

theorem greeks_sanitize_S_pos (S0 K0 T0 sigma0 : ℝ) :
    0 < (greeks_sanitize S0 K0 T0 sigma0).S := by
  simp only [greeks_sanitize]
  split
  · norm_num
  · rename_i h
    exact lt_of_not_le h

theorem greeks_sanitize_K_pos (S0 K0 T0 sigma0 : ℝ) :
    0 < (greeks_sanitize S0 K0 T0 sigma0).K := by
  have hS := greeks_sanitize_S_pos S0 K0 T0 sigma0
  simp only [greeks_sanitize] at hS ⊢
  split
  · exact hS
  · rename_i h
    exact lt_of_not_le h

theorem greeks_sanitize_T_pos (S0 K0 T0 sigma0 : ℝ) :
    0 < (greeks_sanitize S0 K0 T0 sigma0).T := by
  simp only [greeks_sanitize]
  split
  · norm_num
  · rename_i h
    exact lt_of_not_le h

theorem greeks_sanitize_sigma_pos (S0 K0 T0 sigma0 : ℝ) :
    0 < (greeks_sanitize S0 K0 T0 sigma0).sigma := by
  simp only [greeks_sanitize]
  split
  · norm_num
  · rename_i h
    exact lt_of_not_le h

theorem bs_call_delta_mem (inp : GreeksInputs) :
    0 ≤ (black_scholes_greeks inp .call).delta ∧
      (black_scholes_greeks inp .call).delta ≤ 1 := by
  simp only [black_scholes_greeks]
  exact ⟨normCdf_nonneg _, normCdf_le_one _⟩

theorem bs_put_delta_mem (inp : GreeksInputs) :
    -1 ≤ (black_scholes_greeks inp .put).delta ∧
      (black_scholes_greeks inp .put).delta ≤ 0 := by
  simp only [black_scholes_greeks]
  constructor
  · simpa using normCdf_le_one _
  · simpa using normCdf_nonneg _

theorem bs_gamma_nonneg (inp : GreeksInputs) (option_type : OptionType) :
    0 ≤ (black_scholes_greeks inp option_type).gamma := by
  simp only [black_scholes_greeks]
  split
  · norm_num
  · rename_i h
    exact div_nonneg (normPdf_nonneg _) (lt_of_not_le h).le

theorem bs_vega_nonneg (inp : GreeksInputs) (hS : 0 ≤ inp.S)
    (option_type : OptionType) :
    0 ≤ (black_scholes_greeks inp option_type).vega := by
  simp only [black_scholes_greeks]
  have := normPdf_nonneg ((Real.log (inp.S / inp.K) +
      ((risk_free_rate : ℝ) + 0.5 * inp.sigma ^ 2) * inp.T) /
      (inp.sigma * Real.sqrt inp.T))
  positivity

/-- Claim C7 -- For every input, the analytically computed Greeks
satisfy: CALL delta in [0, 1], PUT delta in [-1, 0], gamma nonnegative
and vega nonnegative (the code sanitizes every input to positive values
before the Black-Scholes formulas, so this holds unconditionally). -/
theorem calculate_greeks_sanity (S0 K0 t sigma0 : ℝ) :
    (0 ≤ (calculate_greeks S0 K0 t sigma0 .call).delta ∧
      (calculate_greeks S0 K0 t sigma0 .call).delta ≤ 1) ∧
    (-1 ≤ (calculate_greeks S0 K0 t sigma0 .put).delta ∧
      (calculate_greeks S0 K0 t sigma0 .put).delta ≤ 0) ∧
    (∀ option_type : OptionType,
      0 ≤ (calculate_greeks S0 K0 t sigma0 option_type).gamma ∧
        0 ≤ (calculate_greeks S0 K0 t sigma0 option_type).vega) := by
  refine ⟨bs_call_delta_mem _, bs_put_delta_mem _, fun option_type => ?_⟩
  exact ⟨bs_gamma_nonneg _ _,
    bs_vega_nonneg _ (greeks_sanitize_S_pos S0 K0 (t / 365) sigma0).le _⟩

/-- Claim C2 counterexample -- at the fully degenerate input
`current_price = strike = time_to_expiry = volatility = -1` the code does
not reject: the sanitization step silently replaces the inputs by the
defaults `(100, 100, 1/365 years, 0.20)` and the Greeks are computed on
those defaults. -/
theorem calculate_greeks_accepts_degenerate_input :
    greeks_sanitize (-1) (-1) ((-1) / 365) (-1) =
      ⟨100, 100, 1 / 365, 0.20⟩ ∧
    calculate_greeks (-1) (-1) (-1) (-1) .put =
      black_scholes_greeks ⟨100, 100, 1 / 365, 0.20⟩ .put := by
  have h1 : greeks_sanitize (-1) (-1) ((-1) / 365) (-1) =
      ⟨100, 100, 1 / 365, 0.20⟩ := by
    simp only [greeks_sanitize]
    norm_num
  refine ⟨h1, ?_⟩
  simp only [calculate_greeks, h1]

/-- Claim C2 (amended) -- the Greeks calculation never rejects: every
nonpositive input is silently replaced by a default (`price ≤ 0 → $100`,
`strike ≤ 0 → price`, `time ≤ 0 → 1 day`, `volatility ≤ 0 → 20%`), so
the Black-Scholes formulas always run on strictly positive parameters. -/
theorem calculate_greeks_substitutes_defaults (S0 K0 t sigma0 : ℝ) :
    (0 < (greeks_sanitize S0 K0 (t / 365) sigma0).S ∧
      0 < (greeks_sanitize S0 K0 (t / 365) sigma0).K ∧
      0 < (greeks_sanitize S0 K0 (t / 365) sigma0).T ∧
      0 < (greeks_sanitize S0 K0 (t / 365) sigma0).sigma) ∧
    (S0 ≤ 0 → (greeks_sanitize S0 K0 (t / 365) sigma0).S = 100) ∧
    (sigma0 ≤ 0 → (greeks_sanitize S0 K0 (t / 365) sigma0).sigma = 0.20) ∧
    (t ≤ 0 → (greeks_sanitize S0 K0 (t / 365) sigma0).T = 1 / 365) ∧
    (∀ option_type : OptionType,
      calculate_greeks S0 K0 t sigma0 option_type =
        black_scholes_greeks (greeks_sanitize S0 K0 (t / 365) sigma0) option_type) := by
  refine ⟨⟨greeks_sanitize_S_pos _ _ _ _, greeks_sanitize_K_pos _ _ _ _,
    greeks_sanitize_T_pos _ _ _ _, greeks_sanitize_sigma_pos _ _ _ _⟩,
    fun hS => ?_, fun hsig => ?_, fun ht => ?_, fun _ => rfl⟩
  · simp only [greeks_sanitize, if_pos hS]
  · simp only [greeks_sanitize, if_pos hsig]
  · have hT : t / 365 ≤ 0 := div_nonpos_of_nonpos_of_nonneg ht (by norm_num)
    simp only [greeks_sanitize, if_pos hT]

/-- Witness for the amended Claim C2 at a concrete degenerate input. -/
theorem calculate_greeks_substitutes_defaults_witness :
    (greeks_sanitize (-1) (-1) ((-1) / 365) (-1)).S = 100 ∧
      (greeks_sanitize (-1) (-1) ((-1) / 365) (-1)).sigma = 0.20 := by
  have h := calculate_greeks_substitutes_defaults (-1) (-1) (-1) (-1)
  exact ⟨h.2.1 (neg_nonpos.mpr zero_le_one),
    h.2.2.1 (neg_nonpos.mpr zero_le_one)⟩

/-! ## Historical backtest (`historical_backtest`, lines 261-315)

The code fetches a close-price series, shrinks the lookback window when
the series is shorter than it (`lookback_days = len(prices) -
days_to_expiry - 1`, which can go negative, hence `ℤ`), then simulates
one trade every 10 bars over `range(0, lookback_days - days_to_expiry,
10)` and aggregates the win rate, guarding `total_trades = 0`. -/

/-- The `strategy_type` strings understood by the backtester. -/
inductive StrategyType where
  | bull_put
  | bear_call
  | iron_condor
deriving DecidableEq, Repr

/-- The confidence strings used in the engine (`'High'`, `'Medium'`,
`'Low'`). -/
inductive ConfidenceLevel where
  | High
  | Medium
  | Low
deriving DecidableEq, Repr

/-- The result dictionary of `historical_backtest`. -/
structure BacktestResult where
  historical_win_rate : ℚ
  total_trades : ℕ
  winning_trades : ℕ
  losing_trades : ℕ
  confidence : ConfidenceLevel
deriving DecidableEq, Repr

/-- The entry indices visited by `range(0, stop, 10)` ("simulate trades
every 10 days"). -/
def trade_entry_indices (stop : ℤ) : List ℕ :=
  (List.range stop.toNat).filter fun i => i % 10 = 0

/-- One iteration of the backtest loop: the trade entered at bar `i`
wins if the exit price satisfies the strategy's success condition
against the strike derived from the entry price. -/
def trade_is_win (closes : List ℚ) (strategy_type : StrategyType)
    (strike_offset_pct : ℚ) (days_to_expiry : ℕ) (i : ℕ) : Bool :=
  let entry_price := closes.getD i 0
  let exit_price := closes.getD (i + days_to_expiry) 0
  match strategy_type with
  | .bull_put => decide (exit_price > entry_price * (1 - strike_offset_pct / 100))
  | .bear_call => decide (exit_price < entry_price * (1 + strike_offset_pct / 100))
  | .iron_condor => decide (entry_price * (1 - strike_offset_pct / 100) < exit_price ∧
      exit_price < entry_price * (1 + strike_offset_pct / 100))

/-- The entry indices of `historical_backtest` after the
shrink-the-lookback-window adjustment. -/
def backtest_trade_starts (closes_len days_to_expiry lookback_days : ℕ) : List ℕ :=
  let lookback : ℤ :=
    if closes_len < lookback_days then (closes_len : ℤ) - days_to_expiry - 1
    else lookback_days
  trade_entry_indices (lookback - days_to_expiry)

/-- The method `historical_backtest` on an explicit close-price series (the series
the code fetches inside the method). -/
def historical_backtest (closes : List ℚ) (strategy_type : StrategyType)
    (strike_offset_pct : ℚ) (days_to_expiry lookback_days : ℕ) : BacktestResult :=
  let starts := backtest_trade_starts closes.length days_to_expiry lookback_days
  let wins := (starts.filter
    (trade_is_win closes strategy_type strike_offset_pct days_to_expiry)).length
  let total_trades := starts.length
  let win_rate : ℚ := if 0 < total_trades then (wins : ℚ) / total_trades * 100 else 0
  ⟨win_rate, total_trades, wins, total_trades - wins,
    if 50 < total_trades then .High else .Medium⟩

theorem trade_entry_indices_eq_nil {stop : ℤ} (h : stop ≤ 0) :
    trade_entry_indices stop = [] := by
  unfold trade_entry_indices
  rw [Int.toNat_of_nonpos h]
  rfl

theorem backtest_trade_starts_eq_nil {closes_len days_to_expiry : ℕ}
    (lookback_days : ℕ) (h : closes_len < days_to_expiry + 1) :
    backtest_trade_starts closes_len days_to_expiry lookback_days = [] := by
  unfold backtest_trade_starts
  apply trade_entry_indices_eq_nil
  split <;> omega

/-- Claim C4 -- a zero-trade backtest returns `win_rate = 0` (a guarded
zero, not a division error), and a close-price history shorter than
`days_to_expiry + 1` always produces such a zero-trade result. -/
theorem historical_backtest_zero_trades (closes : List ℚ)
    (strategy_type : StrategyType) (strike_offset_pct : ℚ)
    (days_to_expiry lookback_days : ℕ) :
    ((historical_backtest closes strategy_type strike_offset_pct days_to_expiry
        lookback_days).total_trades = 0 →
      (historical_backtest closes strategy_type strike_offset_pct days_to_expiry
        lookback_days).historical_win_rate = 0) ∧
    (closes.length < days_to_expiry + 1 →
      (historical_backtest closes strategy_type strike_offset_pct days_to_expiry
        lookback_days).total_trades = 0 ∧
      (historical_backtest closes strategy_type strike_offset_pct days_to_expiry
        lookback_days).historical_win_rate = 0) := by
  constructor
  · intro h
    simp only [historical_backtest] at h ⊢
    rw [if_neg (by omega)]
  · intro h
    have hnil := backtest_trade_starts_eq_nil lookback_days h
    simp [historical_backtest, hnil]

/-- Witness for Claim C4: a three-bar history with a ten-day horizon
yields the zero-trade, zero-win-rate result. -/
theorem historical_backtest_zero_trades_witness :
    (historical_backtest [1, 2, 3] .bull_put 4 10 504).total_trades = 0 ∧
    (historical_backtest [1, 2, 3] .bull_put 4 10 504).historical_win_rate = 0 :=
  (historical_backtest_zero_trades [1, 2, 3] .bull_put 4 10 504).2 (by decide)

/-! ## Mock market data (`_generate_realistic_mock_data`, lines 110-173)

When the data fetchers fail, `historical_backtest`'s call to
`get_real_market_data` falls back to this generator: starting from a
base price it draws 60 daily returns (`random.normalvariate`) and
produces `prices.append(max(price, base_price * 0.7))` while the running
`price` itself compounds unclamped.  The random draws are made an
explicit list argument. -/

/-- The price loop of `_generate_realistic_mock_data`: the running price
compounds by `1 + daily_return` and the appended close is floored at 70%
of the base price. -/
def mock_price_path (base_price : ℚ) : ℚ → List ℚ → List ℚ
  | _, [] => []
  | price, r :: rs =>
    let price2 := price * (1 + r)
    max price2 (base_price * (7 / 10)) :: mock_price_path base_price price2 rs

/-- The `Close` column of the mock data: the price loop started at the
base price (the code uses 60 draws). -/
def mock_close_prices (base_price : ℚ) (draws : List ℚ) : List ℚ :=
  mock_price_path base_price base_price draws

/-- The method `historical_backtest` as it executes when the data fetch falls back
to mock data: the close series is fabricated from the random draws. -/
def historical_backtest_on_mock (base_price : ℚ) (draws : List ℚ)
    (strategy_type : StrategyType) (strike_offset_pct : ℚ)
    (days_to_expiry lookback_days : ℕ) : BacktestResult :=
  historical_backtest (mock_close_prices base_price draws) strategy_type
    strike_offset_pct days_to_expiry lookback_days

theorem mock_price_path_zero_draws (base_price p : ℚ)
    (h : base_price * (7 / 10) ≤ p) (n : ℕ) :
    mock_price_path base_price p (List.replicate n 0) = List.replicate n p := by
  induction n with
  | zero => rfl
  | succ n ih =>
    rw [List.replicate_succ, List.replicate_succ]
    simp only [mock_price_path, add_zero, mul_one]
    rw [max_eq_left h, ih]

theorem mock_close_prices_flat :
    mock_close_prices 100 (List.replicate 60 0) = List.replicate 60 100 := by
  unfold mock_close_prices
  exact mock_price_path_zero_draws 100 100 (by norm_num) 60

theorem mock_close_prices_one_drop :
    mock_close_prices 100 (List.replicate 5 0 ++ (-1 / 10) :: List.replicate 54 0) =
      List.replicate 5 100 ++ 90 :: List.replicate 54 90 := by
  have h54 : mock_price_path 100 90 (List.replicate 54 0) = List.replicate 54 90 :=
    mock_price_path_zero_draws 100 90 (by norm_num) 54
  show mock_price_path 100 100
      (0 :: 0 :: 0 :: 0 :: 0 :: (-1 / 10) :: List.replicate 54 0) =
    100 :: 100 :: 100 :: 100 :: 100 :: 90 :: List.replicate 54 90
  simp only [mock_price_path]
  norm_num [h54]
  rfl

theorem backtest_on_flat_mock :
    historical_backtest (List.replicate 60 (100 : ℚ)) .bull_put 4 10 504 =
      ⟨100, 4, 4, 0, .Medium⟩ := by
  have hstarts : backtest_trade_starts (List.replicate 60 (100 : ℚ)).length 10 504 =
      [0, 10, 20, 30] := by decide
  have hwin : ∀ i ∈ [0, 10, 20, 30],
      trade_is_win (List.replicate 60 (100 : ℚ)) .bull_put 4 10 i = true := by
    intro i hi
    fin_cases hi <;>
      · simp only [trade_is_win]
        norm_num [show ((List.replicate 60 (100 : ℚ)).getD 10 0 : ℚ) = 100 from rfl,
          show ((List.replicate 60 (100 : ℚ)).getD 0 0 : ℚ) = 100 from rfl,
          show ((List.replicate 60 (100 : ℚ)).getD 20 0 : ℚ) = 100 from rfl,
          show ((List.replicate 60 (100 : ℚ)).getD 30 0 : ℚ) = 100 from rfl,
          show ((List.replicate 60 (100 : ℚ)).getD 40 0 : ℚ) = 100 from rfl]
  simp only [historical_backtest, hstarts]
  rw [List.filter_eq_self.mpr hwin]
  norm_num [BacktestResult.mk.injEq]

theorem backtest_on_dropped_mock :
    historical_backtest (List.replicate 5 (100 : ℚ) ++ 90 :: List.replicate 54 90)
        .bull_put 4 10 504 =
      ⟨75, 4, 3, 1, .Medium⟩ := by
  have hstarts : backtest_trade_starts
      (List.replicate 5 (100 : ℚ) ++ 90 :: List.replicate 54 90).length 10 504 =
      [0, 10, 20, 30] := by decide
  have hw0 : trade_is_win (List.replicate 5 (100 : ℚ) ++ 90 :: List.replicate 54 90)
      .bull_put 4 10 0 = false := by
    have e1 : ((List.replicate 5 (100 : ℚ) ++ 90 :: List.replicate 54 90).getD 0 0 : ℚ) =
        100 := rfl
    have e2 : ((List.replicate 5 (100 : ℚ) ++ 90 :: List.replicate 54 90).getD (0 + 10) 0 : ℚ) =
        90 := rfl
    simp only [trade_is_win, e1, e2]
    norm_num
  have hw10 : trade_is_win (List.replicate 5 (100 : ℚ) ++ 90 :: List.replicate 54 90)
      .bull_put 4 10 10 = true := by
    have e1 : ((List.replicate 5 (100 : ℚ) ++ 90 :: List.replicate 54 90).getD 10 0 : ℚ) =
        90 := rfl
    have e2 : ((List.replicate 5 (100 : ℚ) ++ 90 :: List.replicate 54 90).getD (10 + 10) 0 : ℚ) =
        90 := rfl
    simp only [trade_is_win, e1, e2]
    norm_num
  have hw20 : trade_is_win (List.replicate 5 (100 : ℚ) ++ 90 :: List.replicate 54 90)
      .bull_put 4 10 20 = true := by
    have e1 : ((List.replicate 5 (100 : ℚ) ++ 90 :: List.replicate 54 90).getD 20 0 : ℚ) =
        90 := rfl
    have e2 : ((List.replicate 5 (100 : ℚ) ++ 90 :: List.replicate 54 90).getD (20 + 10) 0 : ℚ) =
        90 := rfl
    simp only [trade_is_win, e1, e2]
    norm_num
  have hw30 : trade_is_win (List.replicate 5 (100 : ℚ) ++ 90 :: List.replicate 54 90)
      .bull_put 4 10 30 = true := by
    have e1 : ((List.replicate 5 (100 : ℚ) ++ 90 :: List.replicate 54 90).getD 30 0 : ℚ) =
        90 := rfl
    have e2 : ((List.replicate 5 (100 : ℚ) ++ 90 :: List.replicate 54 90).getD (30 + 10) 0 : ℚ) =
        90 := rfl
    simp only [trade_is_win, e1, e2]
    norm_num
  simp only [historical_backtest, hstarts]
  rw [show (([0, 10, 20, 30] : List ℕ).filter
      (trade_is_win (List.replicate 5 (100 : ℚ) ++ 90 :: List.replicate 54 90) .bull_put 4 10)) =
      ([10, 20, 30] : List ℕ) by
    simp only [List.filter_cons, List.filter_nil, hw0, hw10, hw20, hw30]
    norm_num]
  norm_num [BacktestResult.mk.injEq]

/-- Claim C9 counterexample -- two backtest calls with identical
arguments (symbol data aside) can return different results: on the
mock-data fallback path, a flat stream of random draws yields a 100%
win rate while a stream containing one -10% draw yields 75%, so the
result is not a function of the call's arguments alone. -/
theorem historical_backtest_hidden_randomness_counterexample :
    (historical_backtest_on_mock 100 (List.replicate 60 0) .bull_put 4 10
        504).historical_win_rate = 100 ∧
    (historical_backtest_on_mock 100 (List.replicate 5 0 ++ (-1 / 10) :: List.replicate 54 0)
        .bull_put 4 10 504).historical_win_rate = 75 ∧
    historical_backtest_on_mock 100 (List.replicate 60 0) .bull_put 4 10 504 ≠
      historical_backtest_on_mock 100 (List.replicate 5 0 ++ (-1 / 10) :: List.replicate 54 0)
        .bull_put 4 10 504 := by
  have h1 : historical_backtest_on_mock 100 (List.replicate 60 0) .bull_put 4 10 504 =
      ⟨100, 4, 4, 0, .Medium⟩ := by
    unfold historical_backtest_on_mock
    rw [mock_close_prices_flat, backtest_on_flat_mock]
  have h2 : historical_backtest_on_mock 100
      (List.replicate 5 0 ++ (-1 / 10) :: List.replicate 54 0) .bull_put 4 10 504 =
      ⟨75, 4, 3, 1, .Medium⟩ := by
    unfold historical_backtest_on_mock
    rw [mock_close_prices_one_drop, backtest_on_dropped_mock]
  refine ⟨by rw [h1], by rw [h2], ?_⟩
  rw [h1, h2]
  intro h
  have := congrArg BacktestResult.historical_win_rate h
  norm_num at this

/-- Claim C9 (amended) -- the backtest computation is deterministic given
the close-price series it ends up using: whenever the (possibly random)
mock-data fallback produces the same closes, the backtest result is the
same.  The hidden randomness influences the result only through the
fabricated series. -/
theorem historical_backtest_deterministic_given_closes (base_price : ℚ)
    (draws1 draws2 : List ℚ) (strategy_type : StrategyType)
    (strike_offset_pct : ℚ) (days_to_expiry lookback_days : ℕ)
    (h : mock_close_prices base_price draws1 = mock_close_prices base_price draws2) :
    historical_backtest_on_mock base_price draws1 strategy_type strike_offset_pct
        days_to_expiry lookback_days =
      historical_backtest_on_mock base_price draws2 strategy_type strike_offset_pct
        days_to_expiry lookback_days := by
  unfold historical_backtest_on_mock
  rw [h]

/-- Witness for the amended Claim C9 at concrete equal draw streams. -/
theorem historical_backtest_deterministic_given_closes_witness :
    historical_backtest_on_mock 100 ([0] : List ℚ) .bull_put 4 10 504 =
      historical_backtest_on_mock 100 ([0] : List ℚ) .bull_put 4 10 504 :=
  historical_backtest_deterministic_given_closes 100 ([0] : List ℚ) ([0] : List ℚ)
    .bull_put 4 10 504 rfl

/-! ## Weighted blend (`calculate_professional_probability`, lines 317-393)

Step 7 of the method blends the Monte Carlo probability, the backtest
win rate and the technical score with fixed weights 0.4/0.3/0.3.  No
clamp is applied in the code; the sum stays in [0, 100] because each
component does. -/

/-- The weight `monte_carlo_weight = 0.4`. -/
def monte_carlo_weight : ℚ := 4 / 10

/-- The weight `historical_weight = 0.3`. -/
def historical_weight : ℚ := 3 / 10

/-- The weight `technical_weight = 0.3`. -/
def technical_weight : ℚ := 3 / 10

/-- The `final_probability` computed at lines 361-366:
`mc * 0.4 + backtest * 0.3 + technical * 0.3`. -/
def final_probability (mc_probability historical_win_rate technical_prob : ℚ) : ℚ :=
  mc_probability * monte_carlo_weight +
    historical_win_rate * historical_weight +
    technical_prob * technical_weight

/-- Claim C5 -- the blender computes the fixed-weight combination
`0.4*mc + 0.3*backtest + 0.3*technical`; on component values in
[0, 100] the result already lies in [0, 100], so it coincides with its
clamp to [0, 100]; and neutral inputs (50, 50, 50) blend to exactly
50. -/
theorem final_probability_weighted_blend
    (mc_probability historical_win_rate technical_prob : ℚ) :
    final_probability mc_probability historical_win_rate technical_prob =
      4 / 10 * mc_probability + 3 / 10 * historical_win_rate +
        3 / 10 * technical_prob ∧
    final_probability 50 50 50 = 50 ∧
    (0 ≤ mc_probability → mc_probability ≤ 100 →
      0 ≤ historical_win_rate → historical_win_rate ≤ 100 →
      0 ≤ technical_prob → technical_prob ≤ 100 →
      0 ≤ final_probability mc_probability historical_win_rate technical_prob ∧
      final_probability mc_probability historical_win_rate technical_prob ≤ 100 ∧
      final_probability mc_probability historical_win_rate technical_prob =
        min 100 (max 0
          (final_probability mc_probability historical_win_rate technical_prob))) := by
  refine ⟨?_, ?_, ?_⟩
  · unfold final_probability monte_carlo_weight historical_weight technical_weight
    ring
  · unfold final_probability monte_carlo_weight historical_weight technical_weight
    norm_num
  · intro h1 h2 h3 h4 h5 h6
    unfold final_probability monte_carlo_weight historical_weight technical_weight
    refine ⟨by nlinarith, by nlinarith, ?_⟩
    rw [max_eq_right (by nlinarith), min_eq_right (by nlinarith)]

/-- Witness for Claim C5 at concrete in-range component values. -/
theorem final_probability_weighted_blend_witness :
    (0 ≤ final_probability 80 40 60 ∧ final_probability 80 40 60 ≤ 100 ∧
      final_probability 80 40 60 = min 100 (max 0 (final_probability 80 40 60))) ∧
    final_probability 50 50 50 = 50 :=
  ⟨(final_probability_weighted_blend 80 40 60).2.2 (by decide) (by decide)
      (by decide) (by decide) (by decide) (by decide),
    (final_probability_weighted_blend 80 40 60).2.1⟩

/-! ## Confidence label (`calculate_confidence`, lines 436-457)

The code collects up to three "factors": a strong Monte Carlo signal
(`|mc - 50| > 20`), strong historical data (`total_trades > 50`, a trade
count, not a win-rate deviation) and a clear technical signal
(`|technical - 50| > 15`); the label is High for at least two factors,
Medium for exactly one, Low for none.  Deviation direction plays no
role. -/

/-- The method `calculate_confidence(mc_result, backtest, technical_prob)`: count
the factors and bucket the count. -/
def calculate_confidence (mc_probability : ℚ) (backtest : BacktestResult)
    (technical_prob : ℚ) : ConfidenceLevel :=
  let factors : ℕ :=
    (if 20 < |mc_probability - 50| then 1 else 0) +
    (if 50 < backtest.total_trades then 1 else 0) +
    (if 15 < |technical_prob - 50| then 1 else 0)
  if 2 ≤ factors then .High else if factors = 1 then .Medium else .Low

/-- Modelled from the spec (Claim C8's reading, which is not what the
code does): count how many of the three components — Monte Carlo
probability, backtest win rate, technical probability — deviate from 50
by more than their threshold upward, and how many downward; High when at
least two deviate in the same direction, Medium when exactly one
component deviates at all, Low otherwise. -/
def confidence_same_direction_rule
    (mc_probability backtest_win_rate technical_prob : ℚ)
    (mc_threshold backtest_threshold technical_threshold : ℚ) : ConfidenceLevel :=
  let deviates_up : ℕ :=
    (if mc_threshold < mc_probability - 50 then 1 else 0) +
    (if backtest_threshold < backtest_win_rate - 50 then 1 else 0) +
    (if technical_threshold < technical_prob - 50 then 1 else 0)
  let deviates_down : ℕ :=
    (if mc_threshold < 50 - mc_probability then 1 else 0) +
    (if backtest_threshold < 50 - backtest_win_rate then 1 else 0) +
    (if technical_threshold < 50 - technical_prob then 1 else 0)
  if 2 ≤ max deviates_up deviates_down then .High
  else if deviates_up + deviates_down = 1 then .Medium
  else .Low

/-- Claim C8 counterexample -- with Monte Carlo 80 (deviating up),
backtest win rate 50 over 60 trades (no deviation), and technical 20
(deviating down), no two components deviate in the same direction, so
the claim's rule does not give High; but the code counts three factors
(the backtest factor is the trade count 60 > 50) and returns High. -/
theorem calculate_confidence_counterexample :
    calculate_confidence 80 ⟨50, 60, 30, 30, .High⟩ 20 = .High ∧
    confidence_same_direction_rule 80 50 20 20 20 15 = .Low ∧
    calculate_confidence 80 ⟨50, 60, 30, 30, .High⟩ 20 ≠
      confidence_same_direction_rule 80 50 20 20 20 15 := by
  have habs1 : |(80 : ℚ) - 50| = 30 := by
    rw [show (80 : ℚ) - 50 = 30 by norm_num]
    exact abs_of_nonneg (by norm_num)
  have habs2 : |(20 : ℚ) - 50| = 30 := by
    rw [show (20 : ℚ) - 50 = -30 by norm_num, abs_neg]
    exact abs_of_nonneg (by norm_num)
  have h1 : calculate_confidence 80 ⟨50, 60, 30, 30, .High⟩ 20 = .High := by
    simp only [calculate_confidence, habs1, habs2]
    norm_num
  have h2 : confidence_same_direction_rule 80 50 20 20 20 15 = .Low := by
    simp only [confidence_same_direction_rule]
    norm_num
  refine ⟨h1, h2, ?_⟩
  rw [h1, h2]
  decide

/-- Claim C8 (amended) -- the label is High exactly when at least two of
the code's three factors hold, Medium when exactly one holds and Low
when none does, where the factors are `|mc - 50| > 20`,
`total_trades > 50` (a trade count, not a win-rate deviation) and
`|technical - 50| > 15`, with no same-direction requirement. -/
theorem calculate_confidence_factor_rule (mc_probability : ℚ)
    (backtest : BacktestResult) (technical_prob : ℚ) :
    (calculate_confidence mc_probability backtest technical_prob = .High ↔
      ((20 < |mc_probability - 50| ∧ 50 < backtest.total_trades) ∨
       (20 < |mc_probability - 50| ∧ 15 < |technical_prob - 50|) ∨
       (50 < backtest.total_trades ∧ 15 < |technical_prob - 50|))) ∧
    (calculate_confidence mc_probability backtest technical_prob = .Medium ↔
      ((20 < |mc_probability - 50| ∧ ¬ 50 < backtest.total_trades ∧
          ¬ 15 < |technical_prob - 50|) ∨
       (¬ 20 < |mc_probability - 50| ∧ 50 < backtest.total_trades ∧
          ¬ 15 < |technical_prob - 50|) ∨
       (¬ 20 < |mc_probability - 50| ∧ ¬ 50 < backtest.total_trades ∧
          15 < |technical_prob - 50|))) ∧
    (calculate_confidence mc_probability backtest technical_prob = .Low ↔
      (¬ 20 < |mc_probability - 50| ∧ ¬ 50 < backtest.total_trades ∧
        ¬ 15 < |technical_prob - 50|)) := by
  by_cases h1 : 20 < |mc_probability - 50| <;>
    by_cases h2 : 50 < backtest.total_trades <;>
      by_cases h3 : 15 < |technical_prob - 50| <;>
        simp [calculate_confidence, h1, h2, h3]

/-! ## Strategy selector (`_find_optimal_strategy`,
`src/core/unified_ecosystem_engine.py` lines 536-602)

The selector reads the unified result's dominant direction, signal
strength and probabilities.  Every BULLISH state maps to `long_call`,
every BEARISH state to `long_put` (the strength only changes the reason
string), and SIDEWAYS picks the side whose sub-probability is larger. -/

/-- The `dominant_direction` values produced by the unified analysis. -/
inductive Direction where
  | BULLISH
  | BEARISH
  | SIDEWAYS
deriving DecidableEq, Repr

/-- The `signal_strength` values produced by the unified analysis. -/
inductive SignalStrength where
  | STRONG
  | MODERATE
  | WEAK
  | NEUTRAL
deriving DecidableEq, Repr

/-- The two option strategies this engine can recommend. -/
inductive OptionStrategy where
  | long_call
  | long_put
deriving DecidableEq, Repr

/-- The fields of the `unified_result` dictionary that
`_find_optimal_strategy` reads. -/
structure UnifiedResult where
  dominant_direction : Direction
  signal_strength : SignalStrength
  dominant_probability : ℚ
  bullish_probability : ℚ
  bearish_probability : ℚ

/-- The strategy chosen by `_find_optimal_strategy`. -/
def find_optimal_strategy (u : UnifiedResult) : OptionStrategy :=
  match u.dominant_direction with
  | .BULLISH => .long_call
  | .BEARISH => .long_put
  | .SIDEWAYS =>
    if u.bullish_probability > u.bearish_probability then .long_call else .long_put

/-- The `base_returns` entries for the two reachable strategies
(`_calculate_expected_return`; both are 25). -/
def base_return (strategy : OptionStrategy) : ℚ :=
  match strategy with
  | .long_call => 25
  | .long_put => 25

/-- The `strength_multiplier` table of `_calculate_expected_return`. -/
def strength_multiplier (strength : SignalStrength) : ℚ :=
  match strength with
  | .STRONG => 12 / 10
  | .MODERATE => 1
  | .WEAK => 8 / 10
  | .NEUTRAL => 9 / 10

/-- The helper `_calculate_expected_return(strategy, probability, strength)`,
clamped to [5, 35]. -/
def calculate_expected_return (strategy : OptionStrategy) (probability : ℚ)
    (strength : SignalStrength) : ℚ :=
  max 5 (min 35 (base_return strategy * strength_multiplier strength *
    (probability / 60)))

/-- Claim C6 -- the strategy selector is total and its range is exactly
{long_call, long_put}: every input yields one of the two, every BULLISH
state yields `long_call`, every BEARISH state yields `long_put`, and
SIDEWAYS compares the bullish and bearish sub-probabilities, with
`long_put` on ties. -/
theorem find_optimal_strategy_total (signal_strength : SignalStrength)
    (dominant_probability bullish_probability bearish_probability : ℚ) :
    (∀ u : UnifiedResult,
      find_optimal_strategy u = .long_call ∨ find_optimal_strategy u = .long_put) ∧
    find_optimal_strategy ⟨.BULLISH, signal_strength, dominant_probability,
      bullish_probability, bearish_probability⟩ = .long_call ∧
    find_optimal_strategy ⟨.BEARISH, signal_strength, dominant_probability,
      bullish_probability, bearish_probability⟩ = .long_put ∧
    find_optimal_strategy ⟨.SIDEWAYS, signal_strength, dominant_probability,
      bullish_probability, bearish_probability⟩ =
      (if bullish_probability > bearish_probability then .long_call else .long_put) := by
  refine ⟨fun u => ?_, rfl, rfl, rfl⟩
  rcases u with ⟨dir, st, p, bp, bq⟩
  cases dir with
  | BULLISH => exact Or.inl rfl
  | BEARISH => exact Or.inr rfl
  | SIDEWAYS =>
    simp only [find_optimal_strategy]
    split
    · exact Or.inl rfl
    · exact Or.inr rfl

/-! ## Technical probability (`technical_probability`, lines 395-434)

The code computes a support/resistance score from the last 50 closes,
adjusts it by an RSI factor, and clamps the product with
`min(95, max(5, ...))`; any exception in the block (for example an empty
close series, whose `rsi.iloc[-1]` raises) is swallowed and yields the
neutral value 50.  A series shorter than 15 closes gives a NaN RSI in
the source; NaN comparisons are all false there, which selects the final
`else` branch of the adjustment — this is the `none` case of
`last_rsi` below. -/

/-- The final RSI value `rsi.iloc[-1]` of the 14-period RSI over the
close series; `none` models the NaN produced when fewer than 15 closes
exist.  `loss_safe` substitutes 0.01 for a nonpositive mean loss. -/
def last_rsi (closes : List ℚ) : Option ℚ :=
  if closes.length < 15 then none
  else
    let deltas := List.zipWith (fun a b => a - b) closes.tail closes
    let last14 := deltas.drop (deltas.length - 14)
    let gain := ((last14.map fun x => max x 0).sum) / 14
    let loss := ((last14.map fun x => max (-x) 0).sum) / 14
    let loss_safe := if 0 < loss then loss else 1 / 100
    let rs := gain / loss_safe
    some (100 - 100 / (1 + rs))

/-- The RSI-based adjustment factor of `technical_probability`; the
`none` (NaN) case falls through both comparisons into the overbought
branch, as in the source. -/
def rsi_adjustment (strike_price current_price : ℚ)
    (current_rsi : Option ℚ) : ℚ :=
  match current_rsi with
  | none => if strike_price < current_price then 9 / 10 else 11 / 10
  | some r =>
    if 30 ≤ r ∧ r ≤ 70 then 1
    else if r < 30 then
      (if strike_price < current_price then 11 / 10 else 9 / 10)
    else
      (if strike_price < current_price then 9 / 10 else 11 / 10)

/-- The `try` block of `technical_probability`: support/resistance hold
frequency over the last 50 closes, times the RSI adjustment, clamped by
`min(95, max(5, ...))`; `none` models the exception path (empty close
series). -/
def technical_probability_core (closes : List ℚ)
    (current_price strike_price : ℚ) : Option ℚ :=
  if closes.isEmpty then none
  else
    let recent_prices := closes.drop (closes.length - 50)
    let holds : ℚ :=
      if strike_price < current_price then
        ((recent_prices.countP fun p => decide (strike_price < p) : ℕ) : ℚ) /
          (recent_prices.length : ℚ) * 100
      else
        ((recent_prices.countP fun p => decide (p < strike_price) : ℕ) : ℚ) /
          (recent_prices.length : ℚ) * 100
    let adj := rsi_adjustment strike_price current_price (last_rsi closes)
    some (min 95 (max 5 (holds * adj)))

/-- The method `technical_probability(market_data, strike_price)`: the `try` block's
value, or the neutral 50 from the `except` handler. -/
def technical_probability (closes : List ℚ)
    (current_price strike_price : ℚ) : ℚ :=
  (technical_probability_core closes current_price strike_price).getD 50

/-- Claim C10 -- the technical score is total and bounded: every input
yields a value in [5, 95] (the clamp `min(95, max(5, ...))`, and the
failure fallback 50 also lies in that range), and whenever the
computation fails the returned value is the neutral 50. -/
theorem technical_probability_bounds (closes : List ℚ)
    (current_price strike_price : ℚ) :
    (5 ≤ technical_probability closes current_price strike_price ∧
      technical_probability closes current_price strike_price ≤ 95) ∧
    (technical_probability_core closes current_price strike_price = none →
      technical_probability closes current_price strike_price = 50) := by
  unfold technical_probability technical_probability_core
  by_cases h : closes.isEmpty
  · simp only [h, if_true, Option.getD_none]
    norm_num
  · simp only [h, if_false, Option.getD_some]
    refine ⟨⟨le_min (by norm_num) (le_max_left _ _), min_le_left _ _⟩, ?_⟩
    intro hnone
    cases hnone

/-- Witness for Claim C10: the empty close series takes the exception
path and returns the neutral 50, which lies in [5, 95]. -/
theorem technical_probability_bounds_witness :
    technical_probability [] 100 96 = 50 ∧
      5 ≤ technical_probability [] 100 96 :=
  ⟨(technical_probability_bounds [] 100 96).2 rfl,
    (technical_probability_bounds [] 100 96).1.1⟩

end AlphaHunter
